import Mathlib

/-!
Verification of the LinkedIn post tool pipeline (src/app.py).

The Python source is shallowly embedded below: the pure text sanitizer is
translated character-for-character, and the stateful/IO-bound operations
(web search with its 1-hour response cache, post generation, translation,
publishing through the automation agent, and the UI button handlers) are
modelled as pure functions over explicit state, with every external HTTP
or model call represented by an oracle function passed in as an argument,
together with a counter of how many times the oracle was consulted.
-/

set_option autoImplicit false

/-- Whitespace characters recognised by Python's `str.split()` / `str.strip()`
(ASCII subset: space, tab, newline, carriage return, vertical tab, form feed). -/
def isPySpace (c : Char) : Bool :=
  c = ' ' || c = '\t' || c = '\n' || c = '\r' || c = '\x0b' || c = '\x0c'

/-- One left-to-right pass implementing `re.sub(r'\([^)]*\)', '', text)`:
`pend = some buf` holds the (reversed) characters consumed since the most
recent unclosed `'('`; a `')'` discards the buffered span, and an unclosed
span at the end of input is emitted verbatim (the regex does not match it). -/
def removeParensAux : List Char → Option (List Char) → List Char
  | [], none => []
  | [], some pend => pend.reverse
  | c :: rest, none =>
    if c = '(' then removeParensAux rest (some [c])
    else c :: removeParensAux rest none
  | c :: rest, some pend =>
    if c = ')' then removeParensAux rest none
    else removeParensAux rest (some (c :: pend))

/-- `re.sub(r'\([^)]*\)', '', text)` from `clean_text_content` (src/app.py:125). -/
def removeParens (l : List Char) : List Char :=
  removeParensAux l none

/-- Python `str.split()` with an accumulator for the word being read:
splits on runs of whitespace, returning the maximal whitespace-free words. -/
def splitWSAux : List Char → List Char → List (List Char)
  | [], acc => if acc.isEmpty then [] else [acc.reverse]
  | c :: rest, acc =>
    if isPySpace c then
      if acc.isEmpty then splitWSAux rest []
      else acc.reverse :: splitWSAux rest []
    else splitWSAux rest (c :: acc)

/-- Python `text.split()` (no separator argument). -/
def splitWS (l : List Char) : List (List Char) :=
  splitWSAux l []

/-- Python `' '.join(words)`. -/
def joinSpace : List (List Char) → List Char
  | [] => []
  | [w] => w
  | w :: ws => w ++ ' ' :: joinSpace ws

/-- Python `text.replace('(', '').replace(')', '')` (src/app.py:131). -/
def stripParenChars (l : List Char) : List Char :=
  l.filter fun c => !(decide (c = '(') || decide (c = ')'))

/-- Python `text.strip()`: drop whitespace from both ends. -/
def pyStrip (l : List Char) : List Char :=
  ((l.dropWhile isPySpace).reverse.dropWhile isPySpace).reverse

/-- Python `text.strip()` on `String`. -/
def pyStripStr (s : String) : String :=
  String.mk (pyStrip s.data)

/-- `clean_text_content` (src/app.py:118-133): return falsy input unchanged;
remove `(...)` spans; collapse whitespace runs via `' '.join(text.split())`;
delete remaining `(` and `)` characters; strip the ends. -/
def cleanTextContent (text : String) : String :=
  if text = "" then text
  else String.mk (pyStrip (stripParenChars (joinSpace (splitWS (removeParens text.data)))))

/-- Whether a string contains a `'('` or `')'` character. -/
def hasParen (s : String) : Bool :=
  s.data.any fun c => decide (c = '(') || decide (c = ')')

/-- One search result item as consumed by `generate_linkedin_post`:
`item.get('title', '')`, `item.get('snippet', '')`, `item.get('link')`,
and (for news items) `item.get('date')`. -/
structure SearchItem where
  title : Option String
  snippet : Option String
  link : Option String
  date : Option String
deriving DecidableEq

/-- The parsed Serper response body: its optional `organic` and `news` arrays. -/
structure SearchData where
  organic : Option (List SearchItem)
  news : Option (List SearchItem)
deriving DecidableEq

/-- The key under which `@st.cache_data` memoizes `search_web_content`: the
full argument tuple `(query, search_type, api_key, num_results)`. -/
abbrev CacheKey := String × String × String × Nat

/-- The memo table of the `@st.cache_data(ttl=3600)` decorator on
`search_web_content` (src/app.py:94): each entry stores the cached
`(result, error)` return value and its insertion time in seconds. -/
structure SearchCache where
  entries : List (CacheKey × ((Option SearchData × Option String) × Nat))
deriving DecidableEq

/-- Cache lookup: an entry is served when its key equals the argument tuple
and it is younger than the 3600-second ttl. -/
def cacheLookup (now : Nat) (cache : SearchCache) (k : CacheKey) :
    Option (Option SearchData × Option String) :=
  match cache.entries.find? (fun e => decide (e.1 = k) && decide (now < e.2.2 + 3600)) with
  | some e => some e.2.1
  | none => none

/-- `search_web_content` (src/app.py:94-115) together with its
`@st.cache_data(ttl=3600)` wrapper, modelled as memoization on the full
argument tuple. `http` stands for the outbound `requests.post`
(`Except.error` = any `requests.RequestException`, including the one raised
by `raise_for_status`); the final `Nat` counts outbound HTTP requests issued
by this call. -/
def searchWebContent (now : Nat) (cache : SearchCache)
    (http : String → String → String → Nat → Except String SearchData)
    (query searchType apiKey : String) (numResults : Nat) :
    (Option SearchData × Option String) × SearchCache × Nat :=
  match cacheLookup now cache (query, searchType, apiKey, numResults) with
  | some v => (v, cache, 0)
  | none =>
    if apiKey = "" then
      let r : Option SearchData × Option String := (none, some "Serper API key is required")
      (r, ⟨((query, searchType, apiKey, numResults), (r, now)) :: cache.entries⟩, 0)
    else
      let r : Option SearchData × Option String :=
        match http query searchType apiKey numResults with
        | .ok d => (some d, none)
        | .error e => (none, some ("Search failed: " ++ e))
      (r, ⟨((query, searchType, apiKey, numResults), (r, now)) :: cache.entries⟩, 1)

/-- One `"• {title}: {snippet}\n"` line of the content summary, with title and
snippet run through `clean_text_content` (src/app.py:150-152). -/
def bulletLine (item : SearchItem) : String :=
  "• " ++ cleanTextContent (item.title.getD "") ++ ": " ++ cleanTextContent (item.snippet.getD "") ++ "\n"

/-- The lines appended to `content_summary` (src/app.py:144-162): one bulleted
line per item for the first 5 organic items, then the first 3 news items. -/
def summaryLines (cd : SearchData) : List String :=
  (match cd.organic with
   | some items => (items.take 5).map bulletLine
   | none => []) ++
  (match cd.news with
   | some items => (items.take 3).map bulletLine
   | none => [])

/-- The `content_summary` string accumulated in `generate_linkedin_post`. -/
def contentSummary (cd : SearchData) : String :=
  String.join (summaryLines cd)

/-- `if item.get('link'): links.append(item['link'])` — a link is collected
only when present and truthy (non-empty). -/
def itemLink (item : SearchItem) : Option String :=
  match item.link with
  | some s => if s = "" then none else some s
  | none => none

/-- The `links` list of `generate_linkedin_post`: links of the first 5 organic
items followed by links of the first 3 news items. -/
def collectedLinks (cd : SearchData) : List String :=
  (match cd.organic with
   | some items => (items.take 5).filterMap itemLink
   | none => []) ++
  (match cd.news with
   | some items => (items.take 3).filterMap itemLink
   | none => [])

/-- `links[:3]`, the links actually embedded in the prompt (src/app.py:183). -/
def promptLinks (cd : SearchData) : List String :=
  (collectedLinks cd).take 3

/-- The `base_prompt` f-string of `generate_linkedin_post` (src/app.py:165-188). -/
def basePrompt (cd : SearchData) (customPrompt lang : String) : String :=
  "\n    Create an engaging LinkedIn post in " ++ lang ++
  " based on the following content. The post should:\n    \n    1. Be professional yet conversational\n    2. Include relevant hashtags (3-5)\n    3. Have a compelling hook in the first line\n    4. Be between 100-300 words\n    5. Include a call-to-action\n    6. Use emojis strategically (6-8 maximum)\n    7. Structure with short paragraphs for readability\n    8. Ensure all text is properly formatted for " ++
  lang ++
  "\n    9. DO NOT use parentheses () in the text\n    10. Use clear, direct language without parenthetical expressions\n    \n    Content to base the post on:\n    " ++
  contentSummary cd ++
  "\n    \n    Relevant links to potentially reference:\n    " ++
  String.intercalate "\n" (promptLinks cd) ++
  "\n    \n    " ++ customPrompt ++
  "\n    \n    Generate a LinkedIn post that will engage professional audiences and encourage interaction.\n    "

/-- The outcome of one `generate_linkedin_post` call: the Python
`(content, error)` pair plus a count of model invocations made. -/
structure GenResult where
  content : Option String
  error : Option String
  modelCalls : Nat
deriving DecidableEq

/-- `generate_linkedin_post` (src/app.py:136-201). `llm` stands for
`ChatOpenAI(...).invoke` (`Except.error` = any raised exception). The raw
model output is cleaned with `clean_text_content` before being returned. -/
def generateLinkedinPost (contentData : SearchData) (customPrompt apiKey targetLanguage : String)
    (llm : String → Except String String) : GenResult :=
  if apiKey = "" then ⟨none, some "OpenAI API key is required", 0⟩
  else
    match llm (basePrompt contentData customPrompt (pyStripStr targetLanguage)) with
    | .ok out => ⟨some (cleanTextContent out), none, 1⟩
    | .error e => ⟨none, some ("Post generation failed: " ++ e), 1⟩

/-- The translation instruction of `translate_content` (src/app.py:73-86). -/
def translationInstruction (content targetLanguage : String) : String :=
  "You are a professional translator. Translate the following LinkedIn post to " ++
  targetLanguage ++
  ".\n        Important guidelines:\n        1. Maintain the professional tone and style\n        2. Keep all hashtags and translate them appropriately\n        3. Preserve all formatting and line breaks\n        4. Keep emojis that make sense in " ++
  targetLanguage ++
  "\n        5. Ensure the translation is natural and engaging\n        6. Maintain the same length and structure\n        7. Keep any technical terms or brand names unchanged\n        8. Ensure the call-to-action is culturally appropriate\n        \n        Post to translate:\n        " ++
  content ++ "\n        "

/-- `translate_content` (src/app.py:66-91): the Python `(content, error)` pair
plus the number of model invocations made. -/
def translateContent (content targetLanguage apiKey : String)
    (model : String → Except String String) : (Option String × Option String) × Nat :=
  if apiKey = "" then ((none, some "Sutra API key is required"), 0)
  else
    match model (translationInstruction content targetLanguage) with
    | .ok r => ((some r, none), 1)
    | .error e => ((none, some ("Translation failed: " ++ e)), 1)

/-- The `task` f-string handed to the agent executor (src/app.py:218-223). -/
def uploadTask (authorUrn postContent : String) : String :=
  "\n        Create a LinkedIn post by author " ++ authorUrn ++
  " \n        and set visibility to PUBLIC, lifecycleState to PUBLISHED, and resharing enabled.\n        \n        Post content: '" ++
  postContent ++ "'\n        "

/-- The outcome of one `upload_to_linkedin` call: the Python
`(result, error)` pair plus a count of agent-executor invocations. -/
structure UploadResult where
  result : Option String
  error : Option String
  agentCalls : Nat
deriving DecidableEq

/-- `upload_to_linkedin` (src/app.py:204-228). `agent` stands for
`agent_executor.invoke` on the constructed task (`Except.error` = any raised
exception anywhere in the `try` block). -/
def uploadToLinkedin (postContent authorUrn apiKey : String)
    (agent : String → Except String String) : UploadResult :=
  if apiKey = "" then ⟨none, some "Composio API key is required", 0⟩
  else
    match agent (uploadTask authorUrn postContent) with
    | .ok r => ⟨some r, none, 1⟩
    | .error e => ⟨none, some ("LinkedIn upload failed: " ++ e), 1⟩

/-- What the upload button handler did: the user-facing error shown (if any),
the content argument passed on to `upload_to_linkedin` (if reached), and how
many times the agent executor was invoked. -/
structure UploadHandlerResult where
  uiError : Option String
  sentContent : Option String
  agentCalls : Nat
deriving DecidableEq

/-- The per-post upload button handler (src/app.py:459-481): reject a missing
Composio key, then a missing author URN, otherwise clean the edited content
and call `upload_to_linkedin` with it. -/
def uploadButtonHandler (composioKey authorUrn editedContent : String)
    (agent : String → Except String String) : UploadHandlerResult :=
  if composioKey = "" then ⟨some "Please provide Composio API key in the sidebar", none, 0⟩
  else if authorUrn = "" then ⟨some "Please provide LinkedIn Author URN in the sidebar", none, 0⟩
  else
    let cleaned := cleanTextContent editedContent
    let r := uploadToLinkedin cleaned authorUrn composioKey agent
    ⟨r.error.map (fun e => "Upload failed: " ++ e), some cleaned, r.agentCalls⟩

/-- The copy button handler (src/app.py:445-448): the string shown to the user
by `st.code` is the edited content run through `clean_text_content`. -/
def copyAction (editedContent : String) : String :=
  cleanTextContent editedContent

/-- The `variation_prompt` of loop iteration `i` (src/app.py:358-363): the
cleaned custom prompt, with a fixed suffix appended for iterations 1 and 2. -/
def variationPrompt (customPrompt : String) (i : Nat) : String :=
  let p := cleanTextContent customPrompt
  if i = 1 then p ++ "\n\nMake this version more casual and story-driven."
  else if i = 2 then p ++ "\n\nMake this version more data-driven and professional."
  else p

/-- One stored draft variant (the dict appended to `post_variations`,
src/app.py:374-379). -/
structure DraftVariant where
  content : String
  timestamp : Nat
  variation : String
  language : String
deriving DecidableEq

/-- The `generate_linkedin_post` call made at loop iteration `i` of the
search-and-generate handler (src/app.py:366-371): the selected language is
cleaned before being passed. `llm` gives the model oracle of iteration `i`. -/
def variantGen (searchResults : SearchData) (customPrompt apiKey selectedLanguage : String)
    (llm : Nat → String → Except String String) : Nat → GenResult :=
  fun i =>
    generateLinkedinPost searchResults (variationPrompt customPrompt i) apiKey
      (cleanTextContent selectedLanguage) (llm i)

/-- The `for i in range(3)` loop body (src/app.py:358-379), over an arbitrary
index list: a variant is appended only when `post_content` is truthy
(generation returned content and the cleaned content is non-empty). Returns
the accumulated list and the number of `generate_linkedin_post` calls made. -/
def runVariants (gen : Nat → GenResult) (now : Nat) (lang : String) :
    List Nat → List DraftVariant × Nat
  | [] => ([], 0)
  | i :: rest =>
    let r := runVariants gen now lang rest
    match (gen i).content with
    | some c =>
      if c = "" then (r.1, r.2 + 1)
      else (⟨c, now, "Variation " ++ toString (i + 1), lang⟩ :: r.1, r.2 + 1)
    | none => (r.1, r.2 + 1)

/-- The full variant-generation phase of the search button handler:
three iterations of the loop, in order. -/
def generateVariants (searchResults : SearchData) (customPrompt apiKey selectedLanguage : String)
    (llm : Nat → String → Except String String) (now : Nat) : List DraftVariant × Nat :=
  runVariants (variantGen searchResults customPrompt apiKey selectedLanguage llm) now
    (cleanTextContent selectedLanguage) (List.range 3)

/-- Whether loop iteration `i` stores a variant: generation returned content
and the cleaned content is non-empty (Python truthiness of `post_content`). -/
def variantOk (gen : Nat → GenResult) (i : Nat) : Bool :=
  match (gen i).content with
  | some c => if c = "" then false else true
  | none => false

/-- `if post_variations: st.success(...) else: st.error(...)`
(src/app.py:383-386): success is reported iff the stored list is non-empty. -/
def searchGenerateSuccess (posts : List DraftVariant) : Bool :=
  !posts.isEmpty

/-- A concrete HTTP oracle that always answers with an empty result set;
used to instantiate theorems at explicit inputs. -/
def constHttpOk : String → String → String → Nat → Except String SearchData :=
  fun _ _ _ _ => Except.ok ⟨none, none⟩

/-- A word produced by `splitWS`: non-empty and whitespace-free. -/
def goodWord (w : List Char) : Prop :=
  w ≠ [] ∧ ∀ c ∈ w, isPySpace c = false

theorem splitWSAux_words (l : List Char) :
    ∀ acc, (∀ c ∈ acc, isPySpace c = false) →
      ∀ w ∈ splitWSAux l acc, goodWord w := by
  induction l with
  | nil =>
    intro acc hacc w hw
    simp only [splitWSAux] at hw
    split at hw
    · simp at hw
    · next hne =>
      simp only [List.mem_singleton] at hw
      subst hw
      refine ⟨?_, ?_⟩
      · simp only [ne_eq, List.reverse_eq_nil_iff]
        intro h
        rw [h] at hne
        simp at hne
      · intro c hc
        exact hacc c (List.mem_reverse.mp hc)
  | cons d rest ih =>
    intro acc hacc w hw
    simp only [splitWSAux] at hw
    by_cases hd : isPySpace d = true
    · rw [if_pos hd] at hw
      split at hw
      · exact ih [] (by simp) w hw
      · next hne =>
        rcases List.mem_cons.mp hw with h | h
        · subst h
          refine ⟨?_, fun c hc => hacc c (List.mem_reverse.mp hc)⟩
          simp only [ne_eq, List.reverse_eq_nil_iff]
          intro h
          rw [h] at hne
          simp at hne
        · exact ih [] (by simp) w h
    · rw [if_neg hd] at hw
      refine ih (d :: acc) ?_ w hw
      intro c hc
      rcases List.mem_cons.mp hc with rfl | hc
      · exact Bool.eq_false_iff.mpr hd
      · exact hacc c hc

theorem splitWS_words (l : List Char) : ∀ w ∈ splitWS l, goodWord w :=
  fun w hw => splitWSAux_words l [] (by simp) w hw

theorem splitWSAux_append (w : List Char) (hW : ∀ c ∈ w, isPySpace c = false) :
    ∀ (l acc : List Char), splitWSAux (w ++ l) acc = splitWSAux l (w.reverse ++ acc) := by
  induction w with
  | nil => intro l acc; simp
  | cons c w' ih =>
    intro l acc
    have hc : isPySpace c = false := hW c (by simp)
    have hW' : ∀ d ∈ w', isPySpace d = false := fun d hd => hW d (by simp [hd])
    simp only [List.cons_append, splitWSAux, hc, Bool.false_eq_true, if_false, List.append_eq]
    rw [ih hW' l (c :: acc)]
    simp

theorem splitWS_word_space (w rest : List Char) (hne : w ≠ [])
    (hW : ∀ c ∈ w, isPySpace c = false) :
    splitWS (w ++ ' ' :: rest) = w :: splitWS rest := by
  unfold splitWS
  rw [splitWSAux_append w hW (' ' :: rest) []]
  have hsp : isPySpace ' ' = true := rfl
  have hemp : (w.reverse ++ []).isEmpty = false := by simp [hne]
  simp only [splitWSAux, hsp, if_true, hemp, Bool.false_eq_true, if_false]
  simp

theorem splitWS_single (w : List Char) (hne : w ≠ []) (hW : ∀ c ∈ w, isPySpace c = false) :
    splitWS w = [w] := by
  unfold splitWS
  have h := splitWSAux_append w hW [] []
  simp only [List.append_nil] at h
  rw [h]
  have hemp : (w.reverse ++ []).isEmpty = false := by simp [hne]
  simp only [splitWSAux, hemp, Bool.false_eq_true, if_false]
  simp [hne]

theorem splitWS_joinSpace (ws : List (List Char)) (h : ∀ w ∈ ws, goodWord w) :
    splitWS (joinSpace ws) = ws := by
  induction ws with
  | nil => rfl
  | cons w tail ih =>
    cases tail with
    | nil => exact splitWS_single w (h w (by simp)).1 (h w (by simp)).2
    | cons w' tail' =>
      have hjw : joinSpace (w :: w' :: tail') = w ++ ' ' :: joinSpace (w' :: tail') := rfl
      rw [hjw, splitWS_word_space w _ (h w (by simp)).1 (h w (by simp)).2,
        ih (fun u hu => h u (by simp [hu]))]

theorem mem_joinSpace {c : Char} (ws : List (List Char)) (h : c ∈ joinSpace ws) :
    c = ' ' ∨ ∃ w ∈ ws, c ∈ w := by
  induction ws with
  | nil => simp [joinSpace] at h
  | cons w tail ih =>
    cases tail with
    | nil =>
      right
      exact ⟨w, by simp, by simpa [joinSpace] using h⟩
    | cons w' tail' =>
      have hjw : joinSpace (w :: w' :: tail') = w ++ ' ' :: joinSpace (w' :: tail') := rfl
      rw [hjw] at h
      rcases List.mem_append.mp h with h | h
      · exact Or.inr ⟨w, by simp, h⟩
      · rcases List.mem_cons.mp h with h | h
        · exact Or.inl h
        · rcases ih h with h' | ⟨u, hu, hcu⟩
          · exact Or.inl h'
          · exact Or.inr ⟨u, by simp [hu], hcu⟩

theorem splitWSAux_mem {c : Char} : ∀ (l acc w : List Char),
    w ∈ splitWSAux l acc → c ∈ w → c ∈ l ∨ c ∈ acc := by
  intro l
  induction l with
  | nil =>
    intro acc w hw hc
    simp only [splitWSAux] at hw
    split at hw
    · simp at hw
    · simp only [List.mem_singleton] at hw
      subst hw
      exact Or.inr (List.mem_reverse.mp hc)
  | cons d rest ih =>
    intro acc w hw hc
    simp only [splitWSAux] at hw
    by_cases hd : isPySpace d = true
    · rw [if_pos hd] at hw
      split at hw
      · rcases ih [] w hw hc with h | h
        · exact Or.inl (by simp [h])
        · simp at h
      · rcases List.mem_cons.mp hw with h | h
        · subst h
          exact Or.inr (List.mem_reverse.mp hc)
        · rcases ih [] w h hc with h' | h'
          · exact Or.inl (by simp [h'])
          · simp at h'
    · rw [if_neg hd] at hw
      rcases ih (d :: acc) w hw hc with h | h
      · exact Or.inl (by simp [h])
      · rcases List.mem_cons.mp h with rfl | h'
        · exact Or.inl (by simp)
        · exact Or.inr h'

theorem mem_splitWS_joinSpace {c : Char} {l : List Char}
    (h : c ∈ joinSpace (splitWS l)) : c = ' ' ∨ c ∈ l := by
  rcases mem_joinSpace (splitWS l) h with h' | ⟨w, hw, hcw⟩
  · exact Or.inl h'
  · rcases splitWSAux_mem l [] w hw hcw with h' | h'
    · exact Or.inr h'
    · simp at h'

theorem joinSpace_head (ws : List (List Char)) (hne : ws ≠ [])
    (h : ∀ w ∈ ws, goodWord w) :
    ∃ c t, joinSpace ws = c :: t ∧ isPySpace c = false := by
  cases ws with
  | nil => exact absurd rfl hne
  | cons w tail =>
    obtain ⟨hw, hchars⟩ := h w (by simp)
    cases w with
    | nil => exact absurd rfl hw
    | cons c w' =>
      cases tail with
      | nil => exact ⟨c, w', rfl, hchars c (by simp)⟩
      | cons w'' t'' =>
        exact ⟨c, w' ++ ' ' :: joinSpace (w'' :: t''), rfl, hchars c (by simp)⟩

theorem joinSpace_last (ws : List (List Char)) (hne : ws ≠ [])
    (h : ∀ w ∈ ws, goodWord w) :
    ∃ c t, (joinSpace ws).reverse = c :: t ∧ isPySpace c = false := by
  induction ws with
  | nil => exact absurd rfl hne
  | cons w tail ih =>
    cases tail with
    | nil =>
      obtain ⟨hw, hchars⟩ := h w (by simp)
      have hrev : w.reverse ≠ [] := by simpa using hw
      obtain ⟨c, t, hct⟩ := List.exists_cons_of_ne_nil hrev
      refine ⟨c, t, by simpa [joinSpace] using hct, hchars c ?_⟩
      exact List.mem_reverse.mp (by simp [hct])
    | cons w' t' =>
      obtain ⟨c, t, hct, hc⟩ := ih (by simp) (fun u hu => h u (by simp [hu]))
      refine ⟨c, t ++ ' ' :: w.reverse, ?_, hc⟩
      have hj : joinSpace (w :: w' :: t') = w ++ ' ' :: joinSpace (w' :: t') := rfl
      rw [hj, List.reverse_append, List.reverse_cons, hct]
      simp

theorem dropWhile_eq_self_head {c : Char} {t : List Char} (hc : isPySpace c = false) :
    (c :: t).dropWhile isPySpace = c :: t := by
  simp [List.dropWhile_cons, hc]

theorem pyStrip_joinSpace_splitWS (l : List Char) :
    pyStrip (joinSpace (splitWS l)) = joinSpace (splitWS l) := by
  by_cases hws : splitWS l = []
  · simp [hws, pyStrip, joinSpace]
  · have hgood := splitWS_words l
    obtain ⟨c, t, hct, hc⟩ := joinSpace_head (splitWS l) hws hgood
    obtain ⟨c', t', hct', hc'⟩ := joinSpace_last (splitWS l) hws hgood
    unfold pyStrip
    rw [hct, dropWhile_eq_self_head hc, ← hct, hct', dropWhile_eq_self_head hc', ← hct',
      List.reverse_reverse]

theorem removeParens_no_lparen (l : List Char) (h : '(' ∉ l) : removeParens l = l := by
  unfold removeParens
  induction l with
  | nil => rfl
  | cons c rest ih =>
    have hc : ¬ c = '(' := fun hc => h (by simp [hc])
    have hrest : '(' ∉ rest := fun hr => h (by simp [hr])
    simp [removeParensAux, hc, ih hrest]

theorem hasParen_iff {s : String} :
    hasParen s = false ↔ ∀ c ∈ s.data, c ≠ '(' ∧ c ≠ ')' := by
  unfold hasParen
  rw [List.any_eq_false]
  constructor
  · intro h c hc
    have := h c hc
    simpa [not_or] using this
  · intro h c hc
    simpa [not_or] using h c hc

theorem mem_of_mem_dropWhile {c : Char} (p : Char → Bool) (l : List Char)
    (h : c ∈ l.dropWhile p) : c ∈ l :=
  (List.dropWhile_sublist p).subset h

theorem mem_of_mem_pyStrip {c : Char} {l : List Char} (h : c ∈ pyStrip l) : c ∈ l := by
  unfold pyStrip at h
  rw [List.mem_reverse] at h
  have h1 := mem_of_mem_dropWhile isPySpace _ h
  rw [List.mem_reverse] at h1
  exact mem_of_mem_dropWhile isPySpace _ h1

theorem hasParen_cleanTextContent (s : String) : hasParen (cleanTextContent s) = false := by
  unfold cleanTextContent
  by_cases hs : s = ""
  · rw [if_pos hs, hs]; rfl
  · rw [if_neg hs]
    rw [hasParen_iff]
    intro c hc
    have hc' : c ∈ pyStrip (stripParenChars (joinSpace (splitWS (removeParens s.data)))) := hc
    have h1 := mem_of_mem_pyStrip hc'
    have h2 := List.mem_filter.mp h1
    have := h2.2
    simp only [Bool.not_eq_eq_eq_not, Bool.not_true, Bool.or_eq_false_iff,
      decide_eq_false_iff_not] at this
    exact this

theorem cleanTextContent_eq_normalize {s : String} (hs : s ≠ "") (h : hasParen s = false) :
    cleanTextContent s = String.mk (joinSpace (splitWS s.data)) := by
  have hnp := hasParen_iff.mp h
  unfold cleanTextContent
  rw [if_neg hs]
  have h1 : removeParens s.data = s.data :=
    removeParens_no_lparen s.data (fun hmem => (hnp '(' hmem).1 rfl)
  rw [h1]
  have h2 : stripParenChars (joinSpace (splitWS s.data)) = joinSpace (splitWS s.data) := by
    apply List.filter_eq_self.mpr
    intro c hc
    rcases mem_splitWS_joinSpace hc with rfl | hcl
    · rfl
    · obtain ⟨hA, hB⟩ := hnp c hcl
      simp [hA, hB]
  rw [h2, pyStrip_joinSpace_splitWS]

theorem cleanTextContent_idem_core {s : String} (h : hasParen s = false) :
    cleanTextContent (cleanTextContent s) = cleanTextContent s := by
  by_cases hs : s = ""
  · subst hs; rfl
  · have hcs := cleanTextContent_eq_normalize hs h
    by_cases hJ : splitWS s.data = []
    · rw [hcs, hJ]
      rfl
    · have hJne : joinSpace (splitWS s.data) ≠ [] := by
        obtain ⟨c, t, hct, _⟩ := joinSpace_head (splitWS s.data) hJ (splitWS_words s.data)
        rw [hct]; simp
      have hcs_ne : cleanTextContent s ≠ "" := by
        rw [hcs]
        intro hh
        exact hJne (by simpa using congrArg String.data hh)
      have hparen2 : hasParen (cleanTextContent s) = false := hasParen_cleanTextContent s
      have h2 := cleanTextContent_eq_normalize hcs_ne hparen2
      have hd : (cleanTextContent s).data = joinSpace (splitWS s.data) := by rw [hcs]
      have hspl : splitWS (joinSpace (splitWS s.data)) = splitWS s.data :=
        splitWS_joinSpace (splitWS s.data) (splitWS_words s.data)
      rw [h2, hd, hspl, ← hcs]

theorem generateLinkedinPost_content_shape (contentData : SearchData)
    (customPrompt apiKey targetLanguage : String) (llm : String → Except String String)
    (c : String)
    (h : (generateLinkedinPost contentData customPrompt apiKey targetLanguage llm).content = some c) :
    ∃ out, c = cleanTextContent out := by
  unfold generateLinkedinPost at h
  by_cases hk : apiKey = ""
  · rw [if_pos hk] at h
    simp at h
  · rw [if_neg hk] at h
    cases hllm : llm (basePrompt contentData customPrompt (pyStripStr targetLanguage)) with
    | ok out =>
      rw [hllm] at h
      simp at h
      exact ⟨out, h.symm⟩
    | error e =>
      rw [hllm] at h
      simp at h

theorem runVariants_spec (gen : Nat → GenResult) (now : Nat) (lang : String)
    (idxs : List Nat) :
    (runVariants gen now lang idxs).2 = idxs.length ∧
    (runVariants gen now lang idxs).1.length = (idxs.filter (variantOk gen)).length ∧
    (runVariants gen now lang idxs).1.isEmpty = (idxs.filter (variantOk gen)).isEmpty := by
  induction idxs with
  | nil => exact ⟨rfl, rfl, rfl⟩
  | cons i rest ih =>
    obtain ⟨ih1, ih2, ih3⟩ := ih
    cases hgi : (gen i).content with
    | none =>
      have hok : variantOk gen i = false := by simp [variantOk, hgi]
      simp [runVariants, hgi, List.filter_cons, hok, ih1, ih2, ih3]
    | some c =>
      by_cases hc : c = ""
      · have hok : variantOk gen i = false := by simp [variantOk, hgi, hc]
        simp [runVariants, hgi, hc, List.filter_cons, hok, ih1, ih2, ih3]
      · have hok : variantOk gen i = true := by simp [variantOk, hgi, hc]
        simp [runVariants, hgi, hc, List.filter_cons, hok, ih1, ih2, ih3]

theorem runVariants_noparen (gen : Nat → GenResult)
    (hg : ∀ i c, (gen i).content = some c → hasParen c = false) (now : Nat) (lang : String)
    (idxs : List Nat) :
    ((runVariants gen now lang idxs).1.all fun v => !hasParen v.content) = true := by
  induction idxs with
  | nil => rfl
  | cons i rest ih =>
    cases hgi : (gen i).content with
    | none => simpa [runVariants, hgi] using ih
    | some c =>
      by_cases hc : c = ""
      · simpa [runVariants, hgi, hc] using ih
      · simp only [runVariants, hgi, hc, if_false, List.all_cons, Bool.and_eq_true]
        exact ⟨by simp [hg i c hgi], ih⟩

theorem cacheLookup_exact_key {now : Nat} {cache : SearchCache} {k : CacheKey}
    {v : Option SearchData × Option String} (h : cacheLookup now cache k = some v) :
    ∃ t, (k, (v, t)) ∈ cache.entries := by
  unfold cacheLookup at h
  cases hf : cache.entries.find? (fun e => decide (e.1 = k) && decide (now < e.2.2 + 3600)) with
  | none =>
    rw [hf] at h
    simp at h
  | some e =>
    rw [hf] at h
    simp only [Option.some.injEq] at h
    have hmem := List.mem_of_find?_eq_some hf
    have hpred := List.find?_some hf
    simp only [Bool.and_eq_true, decide_eq_true_eq] at hpred
    obtain ⟨e1, e21, e22⟩ := e
    refine ⟨e22, ?_⟩
    have hk : e1 = k := hpred.1
    have hv : e21 = v := h
    rw [← hk, ← hv]
    exact hmem

/-- C1: every draft content string at an output boundary has passed through
`clean_text_content` and contains no `'('` or `')'` characters: the string
shown by the copy action, the content of every stored draft variant, and the
content argument handed to `upload_to_linkedin` by the publish handler. -/
theorem c1_output_boundary_no_parens
    (edited composioKey authorUrn customPrompt apiKey selectedLanguage : String)
    (sr : SearchData) (llm : Nat → String → Except String String) (now : Nat)
    (agent : String → Except String String) :
    hasParen (copyAction edited) = false ∧
    ((generateVariants sr customPrompt apiKey selectedLanguage llm now).1.all
      fun v => !hasParen v.content) = true ∧
    ((uploadButtonHandler composioKey authorUrn edited agent).sentContent.all
      fun t => !hasParen t) = true := by
  refine ⟨hasParen_cleanTextContent edited, ?_, ?_⟩
  · unfold generateVariants
    apply runVariants_noparen
    intro i c h
    obtain ⟨out, rfl⟩ := generateLinkedinPost_content_shape sr (variationPrompt customPrompt i)
      apiKey (cleanTextContent selectedLanguage) (llm i) c h
    exact hasParen_cleanTextContent out
  · unfold uploadButtonHandler
    by_cases h1 : composioKey = ""
    · rw [if_pos h1]; rfl
    · rw [if_neg h1]
      by_cases h2 : authorUrn = ""
      · rw [if_pos h2]; rfl
      · rw [if_neg h2]
        simp [Option.all, hasParen_cleanTextContent]

/-- C2 counterexample: a publish attempt whose (sanitized) content is the
empty string is not rejected — with a non-empty Composio key and author URN,
the empty content is passed to `upload_to_linkedin` and the agent executor is
invoked once, contradicting the claim that empty content is rejected before
the external agent is ever invoked. -/
theorem c2_counterexample :
    (uploadButtonHandler "k" "urn:li:person:abc" "" (fun _ => Except.ok "posted")).agentCalls = 1 ∧
    (uploadButtonHandler "k" "urn:li:person:abc" "" (fun _ => Except.ok "posted")).sentContent
      = some "" ∧
    (uploadButtonHandler "k" "urn:li:person:abc" "" (fun _ => Except.ok "posted")).uiError
      = none := by
  refine ⟨by decide, by decide, by decide⟩

/-- C2 (amended): a publish attempt with an empty author identity (or a
missing Composio API key) is rejected with a user-facing error before
`upload_to_linkedin` or the agent executor is invoked; empty content is not
checked and is passed through to the agent. -/
theorem c2_empty_author_rejected (composioKey editedContent : String)
    (agent : String → Except String String) :
    (uploadButtonHandler composioKey "" editedContent agent).agentCalls = 0 ∧
    (uploadButtonHandler composioKey "" editedContent agent).uiError.isSome = true ∧
    (uploadButtonHandler composioKey "" editedContent agent).sentContent = none := by
  by_cases h : composioKey = "" <;> simp [uploadButtonHandler, h]

/-- C3 counterexample: the cache key of `@st.cache_data` includes the API-key
argument, so two `search(q, mode, n)` calls that are identical in
`(query, mode, resultCount)` but use different API keys both go to the
network: two outbound HTTP requests, not exactly one. -/
theorem c3_counterexample :
    (searchWebContent 0 ⟨[]⟩ constHttpOk "q" "search" "k1" 10).2.2
      + (searchWebContent 0 (searchWebContent 0 ⟨[]⟩ constHttpOk "q" "search" "k1" 10).2.1
          constHttpOk "q" "search" "k2" 10).2.2 = 2 := by
  decide

theorem searchWebContent_miss (now : Nat) (cache : SearchCache)
    (http : String → String → String → Nat → Except String SearchData)
    (q m key : String) (n : Nat)
    (hkey : key ≠ "") (hmiss : cacheLookup now cache (q, m, key, n) = none) :
    ∃ r, searchWebContent now cache http q m key n
      = (r, ⟨((q, m, key, n), (r, now)) :: cache.entries⟩, 1) := by
  refine ⟨(match http q m key n with
    | .ok d => (some d, none)
    | .error e => (none, some ("Search failed: " ++ e))), ?_⟩
  unfold searchWebContent
  rw [hmiss]
  simp [hkey]

theorem cacheLookup_insert_hit (now2 now : Nat) (cache : SearchCache) (k : CacheKey)
    (r : Option SearchData × Option String) (hwin : now2 < now + 3600) :
    cacheLookup now2 ⟨(k, (r, now)) :: cache.entries⟩ k = some r := by
  unfold cacheLookup
  rw [List.find?_cons_of_pos _ (by simp [hwin])]

/-- C3 (amended): responses are cached keyed by the full argument tuple
`(query, mode, api_key, resultCount)` for up to 1 hour: two identical calls
(same quadruple, the second within the window) issue exactly one outbound
HTTP request and the second call returns the first call's result, and a cache
hit is only ever served from an entry stored under exactly the same
quadruple — entries are never shared across distinct quadruples. -/
theorem c3_cache_full_key (now now2 : Nat) (cache : SearchCache)
    (http : String → String → String → Nat → Except String SearchData)
    (q m key : String) (n : Nat)
    (hkey : key ≠ "") (hmiss : cacheLookup now cache (q, m, key, n) = none)
    (hwin : now2 < now + 3600) :
    (searchWebContent now cache http q m key n).2.2 = 1 ∧
    (searchWebContent now2 (searchWebContent now cache http q m key n).2.1 http q m key n).2.2
      = 0 ∧
    (searchWebContent now2 (searchWebContent now cache http q m key n).2.1 http q m key n).1
      = (searchWebContent now cache http q m key n).1 ∧
    (∀ k2 v, cacheLookup now2 (searchWebContent now cache http q m key n).2.1 k2 = some v →
      (k2 = (q, m, key, n) ∧ v = (searchWebContent now cache http q m key n).1) ∨
        ∃ t, (k2, (v, t)) ∈ cache.entries) := by
  obtain ⟨r, hstep⟩ := searchWebContent_miss now cache http q m key n hkey hmiss
  have h21 : (searchWebContent now cache http q m key n).2.1
      = ⟨((q, m, key, n), (r, now)) :: cache.entries⟩ := by rw [hstep]
  have h1r : (searchWebContent now cache http q m key n).1 = r := by rw [hstep]
  have hlook2 : cacheLookup now2 ⟨((q, m, key, n), (r, now)) :: cache.entries⟩ (q, m, key, n)
      = some r := cacheLookup_insert_hit now2 now cache (q, m, key, n) r hwin
  have hsecond : searchWebContent now2 ⟨((q, m, key, n), (r, now)) :: cache.entries⟩ http q m key n
      = (r, ⟨((q, m, key, n), (r, now)) :: cache.entries⟩, 0) := by
    unfold searchWebContent
    rw [hlook2]
  refine ⟨by rw [hstep], ?_, ?_, ?_⟩
  · rw [h21, hsecond]
  · rw [h21, hsecond, h1r]
  · intro k2 v h
    rw [h21] at h
    by_cases hk2 : k2 = (q, m, key, n)
    · subst hk2
      rw [hlook2] at h
      left
      refine ⟨rfl, ?_⟩
      rw [h1r]
      exact (Option.some.injEq _ _ ▸ h).symm
    · right
      have hpf : ((q, m, key, n) : CacheKey) ≠ k2 := fun hh => hk2 hh.symm
      unfold cacheLookup at h
      rw [List.find?_cons_of_neg _ (by simp [hpf])] at h
      have hcl : cacheLookup now2 cache k2 = some v := h
      exact cacheLookup_exact_key hcl

/-- C4 counterexample: an invocation can be non-failed (its error is `none`)
while storing nothing — when the model output sanitizes to the empty string,
`if post_content:` is falsy. Here invocation 0 succeeds with output `"()"`
(cleaned to `""`) and invocations 1 and 2 raise, so the non-failed count is 1
but the stored list is empty and failure is reported. -/
theorem c4_counterexample :
    (generateVariants ⟨none, none⟩ "" "k" "English"
        (fun i _ => if i = 0 then Except.ok "()" else Except.error "boom") 0).1 = [] ∧
    (variantGen ⟨none, none⟩ "" "k" "English"
        (fun i _ => if i = 0 then Except.ok "()" else Except.error "boom") 0).error = none ∧
    searchGenerateSuccess
      (generateVariants ⟨none, none⟩ "" "k" "English"
        (fun i _ => if i = 0 then Except.ok "()" else Except.error "boom") 0).1 = false := by
  refine ⟨by decide, by decide, by decide⟩

/-- C4 (amended): `generate_linkedin_post` is invoked exactly 3 times per
search, independently — a failure in one iteration does not prevent the
others; the stored variant list holds, in order, one variant per iteration
whose generation returned non-empty cleaned content, and success is reported
iff at least one iteration did so. -/
theorem c4_variant_collection (sr : SearchData)
    (customPrompt apiKey selectedLanguage : String)
    (llm : Nat → String → Except String String) (now : Nat) :
    (generateVariants sr customPrompt apiKey selectedLanguage llm now).2 = 3 ∧
    (generateVariants sr customPrompt apiKey selectedLanguage llm now).1.length
      = ((List.range 3).filter
          (variantOk (variantGen sr customPrompt apiKey selectedLanguage llm))).length ∧
    searchGenerateSuccess (generateVariants sr customPrompt apiKey selectedLanguage llm now).1
      = !((List.range 3).filter
          (variantOk (variantGen sr customPrompt apiKey selectedLanguage llm))).isEmpty := by
  unfold generateVariants searchGenerateSuccess
  obtain ⟨h1, h2, h3⟩ := runVariants_spec
    (variantGen sr customPrompt apiKey selectedLanguage llm) now
    (cleanTextContent selectedLanguage) (List.range 3)
  exact ⟨by rw [h1]; rfl, h2, by rw [h3]⟩

/-- C5: the composed prompt's content summary is one bulleted sanitized line
per item for exactly the first 5 organic items followed by exactly the first
3 news items, in original order, and at most 3 collected links are embedded
in the prompt; with 10 organic and 5 news items the summary has exactly
5 + 3 = 8 lines. -/
theorem c5_summary_truncation (cd : SearchData) (org news : List SearchItem)
    (h1 : cd.organic = some org) (h2 : cd.news = some news)
    (h3 : org.length = 10) (h4 : news.length = 5) :
    summaryLines cd = (org.take 5).map bulletLine ++ (news.take 3).map bulletLine ∧
    (summaryLines cd).length = 8 ∧
    (promptLinks cd).length ≤ 3 ∧
    contentSummary cd
      = String.join ((org.take 5).map bulletLine ++ (news.take 3).map bulletLine) := by
  have hsl : summaryLines cd = (org.take 5).map bulletLine ++ (news.take 3).map bulletLine := by
    simp [summaryLines, h1, h2]
  refine ⟨hsl, ?_, ?_, by rw [contentSummary, hsl]⟩
  · rw [hsl]
    simp [List.length_append, List.length_map, List.length_take, h3, h4]
  · exact (collectedLinks cd).length_take_le 3

/-- Witness for C5 at a concrete result set with 10 organic and 5 news items. -/
theorem c5_summary_truncation_witness :
    ((⟨some (List.replicate 10 ⟨some "t", some "s", some "l", none⟩),
       some (List.replicate 5 ⟨some "u", some "v", some "w", none⟩)⟩ : SearchData).organic
        = some (List.replicate 10 ⟨some "t", some "s", some "l", none⟩) ∧
      (List.replicate 10 (⟨some "t", some "s", some "l", none⟩ : SearchItem)).length = 10) ∧
    (summaryLines
        ⟨some (List.replicate 10 ⟨some "t", some "s", some "l", none⟩),
         some (List.replicate 5 ⟨some "u", some "v", some "w", none⟩)⟩).length = 8 := by
  refine ⟨⟨rfl, by decide⟩, ?_⟩
  exact (c5_summary_truncation
    ⟨some (List.replicate 10 ⟨some "t", some "s", some "l", none⟩),
     some (List.replicate 5 ⟨some "u", some "v", some "w", none⟩)⟩
    (List.replicate 10 ⟨some "t", some "s", some "l", none⟩)
    (List.replicate 5 ⟨some "u", some "v", some "w", none⟩)
    rfl rfl (by decide) (by decide)).2.1

/-- C6 counterexample: the sanitizer is not idempotent. For `"a ( b"` the
paren-span regex matches nothing (no closing `')'`), whitespace is collapsed
first, and only then is the stray `'('` deleted, leaving the double space in
`"a  b"`; a second application collapses it to `"a b"`. -/
theorem c6_counterexample :
    cleanTextContent (cleanTextContent "a ( b") ≠ cleanTextContent "a ( b" := by
  decide

/-- C6 (amended): the sanitizer is idempotent on every string that contains
no `'('` or `')'` character: `sanitize(sanitize(x)) = sanitize(x)` whenever
`x` is parenthesis-free. -/
theorem c6_idempotent_on_paren_free (s : String) (h : hasParen s = false) :
    cleanTextContent (cleanTextContent s) = cleanTextContent s :=
  cleanTextContent_idem_core h

/-- Witness for C6 (amended) at the parenthesis-free string `"no parens"`. -/
theorem c6_idempotent_on_paren_free_witness :
    hasParen "no parens" = false ∧
    cleanTextContent (cleanTextContent "no parens") = cleanTextContent "no parens" :=
  ⟨by decide, c6_idempotent_on_paren_free "no parens" (by decide)⟩

/-- C7: the sanitizer's concrete behaviour — paren-span removal, whitespace
collapse, stray-paren removal, trimming, and empty input returned unchanged —
on the specified example inputs. -/
theorem c7_sanitizer_examples :
    cleanTextContent "Hello (world) there" = "Hello there" ∧
    cleanTextContent "a(b)c(d)e" = "ace" ∧
    cleanTextContent "no parens" = "no parens" ∧
    cleanTextContent "" = "" ∧
    cleanTextContent "a\n\n  b\tc" = "a b c" := by
  refine ⟨by decide, by decide, by decide, by decide, by decide⟩

/-- C8: with its required API key empty, each operation returns its typed
missing-credential failure without consulting its network/model oracle
(call count 0): search, compose, translate, and publish. -/
theorem c8_missing_key_no_network (now : Nat)
    (http : String → String → String → Nat → Except String SearchData)
    (q m : String) (n : Nat) (cd : SearchData)
    (customPrompt lang content tl pc urn : String)
    (llm model agent : String → Except String String) :
    (searchWebContent now ⟨[]⟩ http q m "" n).1 = (none, some "Serper API key is required") ∧
    (searchWebContent now ⟨[]⟩ http q m "" n).2.2 = 0 ∧
    generateLinkedinPost cd customPrompt "" lang llm
      = ⟨none, some "OpenAI API key is required", 0⟩ ∧
    translateContent content tl "" model = ((none, some "Sutra API key is required"), 0) ∧
    uploadToLinkedin pc urn "" agent = ⟨none, some "Composio API key is required", 0⟩ := by
  refine ⟨rfl, rfl, rfl, rfl, rfl⟩

/-- C9 counterexample: variant 1 does not receive the caller-supplied
instructions unmodified — the loop first applies `clean_text_content` to
them, so a parenthetical note is stripped. -/
theorem c9_counterexample :
    variationPrompt "(internal note) keep it short" 0 ≠ "(internal note) keep it short" ∧
    variationPrompt "(internal note) keep it short" 0 = "keep it short" :=
  ⟨by decide, by decide⟩

/-- C9 (amended): each of the three invocations receives the sanitized
(`clean_text_content`) caller instructions; variant 1 with nothing appended,
variant 2 with the fixed casual/story-driven suffix appended, variant 3 with
the fixed data-driven/professional suffix appended. -/
theorem c9_variation_prompts (customPrompt : String) :
    variationPrompt customPrompt 0 = cleanTextContent customPrompt ∧
    variationPrompt customPrompt 1
      = cleanTextContent customPrompt
          ++ "\n\nMake this version more casual and story-driven." ∧
    variationPrompt customPrompt 2
      = cleanTextContent customPrompt
          ++ "\n\nMake this version more data-driven and professional." :=
  ⟨rfl, rfl, rfl⟩

/-- C10: with a non-empty API key, `generate_linkedin_post` never fails on
account of missing `organic`/`news` arrays or missing `title`/`snippet`
fields: it always invokes the model exactly once, missing fields become empty
strings in the summary, a result set with neither array yields an empty
summary, and the call fails iff the model invocation itself errors. -/
theorem c10_compose_tolerates_missing_fields (cd : SearchData)
    (customPrompt apiKey lang : String) (llm : String → Except String String)
    (hk : apiKey ≠ "") :
    (generateLinkedinPost cd customPrompt apiKey lang llm).modelCalls = 1 ∧
    ((generateLinkedinPost cd customPrompt apiKey lang llm).error = none ↔
      ∃ out, llm (basePrompt cd customPrompt (pyStripStr lang)) = Except.ok out) ∧
    contentSummary ⟨none, none⟩ = "" ∧
    bulletLine ⟨none, none, none, none⟩ = "• : \n" := by
  refine ⟨?_, ?_, rfl, by decide⟩
  · unfold generateLinkedinPost
    rw [if_neg hk]
    cases hllm : llm (basePrompt cd customPrompt (pyStripStr lang)) <;> rfl
  · unfold generateLinkedinPost
    rw [if_neg hk]
    cases hllm : llm (basePrompt cd customPrompt (pyStripStr lang)) with
    | ok out => simp [hllm]
    | error e => simp [hllm]

/-- Witness for C10 at a result set with neither array and a model oracle
that answers successfully. -/
theorem c10_compose_tolerates_missing_fields_witness :
    ("k" : String) ≠ "" ∧
    ((generateLinkedinPost ⟨none, none⟩ "" "k" "English"
        (fun _ => Except.ok "great post")).modelCalls = 1 ∧
      ((generateLinkedinPost ⟨none, none⟩ "" "k" "English"
          (fun _ => Except.ok "great post")).error = none ↔
        ∃ out, (Except.ok "great post" : Except String String) = Except.ok out) ∧
      contentSummary ⟨none, none⟩ = "" ∧
      bulletLine ⟨none, none, none, none⟩ = "• : \n") :=
  ⟨by decide,
    c10_compose_tolerates_missing_fields ⟨none, none⟩ "" "k" "English"
      (fun _ => Except.ok "great post") (by decide)⟩

/-- Witness for C3 (amended) at an empty cache, a constant HTTP oracle, and
two calls at times 0 and 1 with the same argument quadruple. -/
theorem c3_cache_full_key_witness :
    (("k" : String) ≠ "" ∧ cacheLookup 0 ⟨[]⟩ ("q", "search", "k", 10) = none ∧
      (1 : Nat) < 0 + 3600) ∧
    ((searchWebContent 0 ⟨[]⟩ constHttpOk "q" "search" "k" 10).2.2 = 1 ∧
      (searchWebContent 1 (searchWebContent 0 ⟨[]⟩ constHttpOk "q" "search" "k" 10).2.1
        constHttpOk "q" "search" "k" 10).2.2 = 0 ∧
      (searchWebContent 1 (searchWebContent 0 ⟨[]⟩ constHttpOk "q" "search" "k" 10).2.1
        constHttpOk "q" "search" "k" 10).1
        = (searchWebContent 0 ⟨[]⟩ constHttpOk "q" "search" "k" 10).1 ∧
      (∀ k2 v,
        cacheLookup 1 (searchWebContent 0 ⟨[]⟩ constHttpOk "q" "search" "k" 10).2.1 k2
          = some v →
        (k2 = ("q", "search", "k", 10) ∧
          v = (searchWebContent 0 ⟨[]⟩ constHttpOk "q" "search" "k" 10).1) ∨
          ∃ t, (k2, (v, t)) ∈ (⟨[]⟩ : SearchCache).entries)) :=
  ⟨⟨by decide, by decide, by decide⟩,
    c3_cache_full_key 0 1 ⟨[]⟩ constHttpOk "q" "search" "k" 10 (by decide) (by decide)
      (by decide)⟩
